import Mathlib

/-!
Verification of the core logic of `src/app.py` (GitHubPRReviewer).

The Python code is dynamically typed and works on decoded JSON values, so the
embedding uses a type `JVal` of Python/JSON values (mutually inductive with
its list and dict forms so that all recursions stay structural).  Fallible
Python operations (dict subscripting, `len`, iteration) are embedded as
`Except String` computations; an `Except.error` produced by
`format_pr_for_review` models an uncaught Python exception (that function has
no try/except), while `fetch_pr_data` and `generate_review` catch their
exceptions in the source and return error strings, which the embedding
returns directly.
-/

mutual
inductive JVal where
  | null
  | bool (b : Bool)
  | int (n : Int)
  | str (s : String)
  | list (xs : JList)
  | dict (kvs : JDict)
inductive JList where
  | nil
  | cons (v : JVal) (tl : JList)
inductive JDict where
  | nil
  | cons (k : String) (v : JVal) (tl : JDict)
end

/-- Convenience constructor for `JList` from a Lean list. -/
def jlist : List JVal → JList
  | [] => .nil
  | v :: tl => .cons v (jlist tl)

/-- Convenience constructor for `JDict` from a Lean association list. -/
def jdict : List (String × JVal) → JDict
  | [] => .nil
  | (k, v) :: tl => .cons k v (jdict tl)

def JList.toList : JList → List JVal
  | .nil => []
  | .cons v tl => v :: tl.toList

def JDict.lookup (k : String) : JDict → Option JVal
  | .nil => none
  | .cons k2 v tl => if k2 = k then some v else tl.lookup k

def JDict.length : JDict → Nat
  | .nil => 0
  | .cons _ _ tl => tl.length + 1

def JDict.keys : JDict → List String
  | .nil => []
  | .cons k _ tl => k :: tl.keys

mutual
/-- Python `repr` of a value, as used when a container is interpolated into an
f-string.  Escaping inside string reprs is not modelled; no formatted field in
the program's data is a container, so this only fixes a rendering for
degenerate inputs. -/
def pyRepr : JVal → String
  | .null => "None"
  | .bool b => if b then "True" else "False"
  | .int n => toString n
  | .str s => "'" ++ s ++ "'"
  | .list xs => "[" ++ pyReprList xs ++ "]"
  | .dict kvs => "\x7b" ++ pyReprDict kvs ++ "\x7d"
def pyReprList : JList → String
  | .nil => ""
  | .cons v .nil => pyRepr v
  | .cons v tl => pyRepr v ++ ", " ++ pyReprList tl
def pyReprDict : JDict → String
  | .nil => ""
  | .cons k v .nil => "'" ++ k ++ "': " ++ pyRepr v
  | .cons k v tl => "'" ++ k ++ "': " ++ pyRepr v ++ ", " ++ pyReprDict tl
end

/-- Python `str` of a value, as applied by f-string interpolation. -/
def pyStr : JVal → String
  | .str s => s
  | v => pyRepr v

/-- Python truthiness, as used by `pr['body'] or 'No description provided'`. -/
def truthy : JVal → Bool
  | .null => false
  | .bool b => b
  | .int n => n != 0
  | .str s => s != ""
  | .list .nil => false
  | .list (.cons _ _) => true
  | .dict .nil => false
  | .dict (.cons _ _ _) => true

/-- Python `v != s` for a string literal `s` (values of a different type are
unequal to a string). -/
def pyNeStr (v : JVal) (s : String) : Bool :=
  match v with
  | .str t => t != s
  | _ => true

/-- Python `v[k]` for a string key: dict lookup, `KeyError` when the key is
missing, `TypeError` on non-dict values. -/
def pyGetItem : JVal → String → Except String JVal
  | .dict kvs, k =>
    match kvs.lookup k with
    | some v => .ok v
    | none => .error ("KeyError: '" ++ k ++ "'")
  | _, k => .error ("TypeError: value is not subscriptable with key '" ++ k ++ "'")

/-- Leading-segment test on character lists. -/
def leadMatch : List Char → List Char → Bool
  | [], _ => true
  | _ :: _, [] => false
  | p :: ps, c :: cs => p == c && leadMatch ps cs

/-- Substring search on character lists. -/
def findSub (p : List Char) : List Char → Bool
  | [] => leadMatch p []
  | c :: cs => leadMatch p (c :: cs) || findSub p cs

/-- `occursInB pat s` holds when `pat` occurs contiguously inside `s`
(Python's `pat in s`). -/
def occursInB (pat s : String) : Bool := findSub pat.data s.data

/-- Python `k in v` for a string `k`: key test on dicts, substring test on
strings, `==`-membership on lists, `TypeError` otherwise. -/
def pyHasKey : JVal → String → Except String Bool
  | .dict kvs, k => .ok (kvs.lookup k).isSome
  | .str s, k => .ok (occursInB k s)
  | .list xs, k =>
    .ok (xs.toList.any fun v =>
      match v with
      | .str t => t == k
      | _ => false)
  | _, _ => .error "TypeError: argument is not iterable"

/-- Python `len`. -/
def pyLen : JVal → Except String Nat
  | .list xs => .ok xs.toList.length
  | .str s => .ok s.length
  | .dict kvs => .ok kvs.length
  | _ => .error "TypeError: object has no len"

/-- Python iteration (`for x in v`): list elements, characters of a string,
keys of a dict; `TypeError` otherwise. -/
def pyIter : JVal → Except String (List JVal)
  | .list xs => .ok xs.toList
  | .str s => .ok (s.data.map fun c => .str (String.singleton c))
  | .dict kvs => .ok (kvs.keys.map fun k => .str k)
  | _ => .error "TypeError: object is not iterable"

/-- Drop the literal character list `lit` from the front of `s`, failing when
`s` does not start with `lit`. -/
def dropLit : List Char → List Char → Option (List Char)
  | [], s => some s
  | _ :: _, [] => none
  | p :: ps, c :: cs => if p = c then dropLit ps cs else none

/-- Capture one regex group `c+` for a character class `c`: the maximal
leading run of characters satisfying `p`, failing when it is empty, together
with the remainder of the input. -/
def takeGroup (p : Char → Bool) (cs : List Char) : Option (List Char × List Char) :=
  if (cs.takeWhile p).isEmpty then none
  else some (cs.takeWhile p, cs.dropWhile p)

/-- The match of `re.match(r'https://github\.com/([^/]+)/([^/]+)/pull/(\d+)', url)`
from `parse_github_url` (src/app.py lines 23-24).  Because the character
classes `[^/]+` and `\d+` cannot match the literal character that follows
them in the pattern (`/` and, for `\d+`, nothing), the greedy match cannot
backtrack: each group is the maximal run its class allows, so the regex is
equivalent to this deterministic scan anchored at the start of the string
(trailing characters after the digits are ignored, as with `re.match`). -/
def matchPR (url : String) : Option (String × String × String) := do
  let rest1 ← dropLit "https://github.com/".data url.data
  let (owner, rest2) ← takeGroup (· != '/') rest1
  let rest3 ← dropLit "/".data rest2
  let (repo, rest4) ← takeGroup (· != '/') rest3
  let rest5 ← dropLit "/pull/".data rest4
  let (num, _) ← takeGroup Char.isDigit rest5
  pure (⟨owner⟩, ⟨repo⟩, ⟨num⟩)

/-- `GitHubPRReviewer.parse_github_url` (src/app.py lines 22-27).  On a match
it returns `match.groups()`, a triple of the captured *strings*; otherwise
`(None, None, None)`. -/
def parse_github_url (url : String) : JVal × JVal × JVal :=
  match matchPR url with
  | some (owner, repo, num) => (.str owner, .str repo, .str num)
  | none => (.null, .null, .null)

/-- Outcome of one `requests.get` call: either the call raises (network
error), or it yields a response with a status code and a `.json()` outcome
(`Except.error` when the body is malformed and `.json()` raises). -/
inductive HttpResult where
  | exn (msg : String)
  | resp (status : Nat) (body : Except String JVal)

/-- `GitHubPRReviewer.fetch_pr_data` (src/app.py lines 29-57), with the two
`requests.get` outcomes supplied as arguments.  Both calls happen (lines
39-40) before any status check, so an exception from either is caught first;
then the two `!= 200` status checks (lines 42-46), then the two `.json()`
decodes (lines 48-49), then the combined dict is returned with no error. -/
def fetch_pr_data (prRes filesRes : HttpResult) : Option JVal × Option String :=
  match prRes with
  | .exn e => (none, some ("Error: " ++ e))
  | .resp s1 b1 =>
    match filesRes with
    | .exn e => (none, some ("Error: " ++ e))
    | .resp s2 b2 =>
      if s1 ≠ 200 then (none, some ("Error fetching PR: " ++ toString s1))
      else if s2 ≠ 200 then (none, some ("Error fetching PR files: " ++ toString s2))
      else
        match b1 with
        | .error e => (none, some ("Error: " ++ e))
        | .ok prData =>
          match b2 with
          | .error e => (none, some ("Error: " ++ e))
          | .ok filesData =>
            (some (.dict (.cons "pr" prData (.cons "files" filesData .nil))), none)

/-- The per-file header lines of `format_pr_for_review` (src/app.py lines
78-80): filename, status, additions/deletions. -/
def fileSegmentBase (file : JVal) : Except String String := do
  let filename ← pyGetItem file "filename"
  let status ← pyGetItem file "status"
  let adds ← pyGetItem file "additions"
  let dels ← pyGetItem file "deletions"
  pure ("\n### " ++ pyStr filename ++
    "\n- **Status:** " ++ pyStr status ++
    "\n- **Additions:** " ++ pyStr adds ++ ", **Deletions:** " ++ pyStr dels)

/-- One iteration of the file loop of `format_pr_for_review` (src/app.py
lines 77-83): the header lines, then — only when
`file['status'] != 'removed' and 'patch' in file` — the fenced diff block. -/
def formatFile (file : JVal) : Except String String := do
  let base ← fileSegmentBase file
  let status ← pyGetItem file "status"
  if pyNeStr status "removed" then do
    let hasPatch ← pyHasKey file "patch"
    if hasPatch then do
      let patch ← pyGetItem file "patch"
      pure (base ++ "\n\n**Changes:**\n```diff\n" ++ pyStr patch ++ "\n```\n")
    else pure base
  else pure base

/-- The header f-string of `format_pr_for_review` (src/app.py lines 63-75):
title, author login, state, created/updated timestamps, the body behind the
`or`-placeholder, and the file count. -/
def prHeader (title login state created updated body : JVal) (nfiles : Nat) : String :=
  "\n## Pull Request Information\n**Title:** " ++ pyStr title ++
  "\n**Author:** " ++ pyStr login ++
  "\n**State:** " ++ pyStr state ++
  "\n**Created:** " ++ pyStr created ++
  "\n**Updated:** " ++ pyStr updated ++
  "\n\n**Description:**\n" ++
  pyStr (if truthy body then body else .str "No description provided") ++
  "\n\n## Files Changed (" ++ toString nfiles ++ " files):\n"

/-- `GitHubPRReviewer.format_pr_for_review` (src/app.py lines 59-85).  Field
accesses follow the source's evaluation order: `data['pr']`, `data['files']`,
then the f-string interpolations left to right (title, user login, state,
created, updated, body-or-placeholder, `len(files)`), then the loop over the
files accumulating one segment per file onto the header. -/
def format_pr_for_review (data : JVal) : Except String String := do
  let pr ← pyGetItem data "pr"
  let files ← pyGetItem data "files"
  let title ← pyGetItem pr "title"
  let user ← pyGetItem pr "user"
  let login ← pyGetItem user "login"
  let state ← pyGetItem pr "state"
  let created ← pyGetItem pr "created_at"
  let updated ← pyGetItem pr "updated_at"
  let body ← pyGetItem pr "body"
  let nfiles ← pyLen files
  let items ← pyIter files
  items.foldlM (fun acc file => do
    let seg ← formatFile file
    pure (acc ++ seg)) (prHeader title login state created updated body nfiles)

/-- The generative-model client: one completion call that either returns the
first text segment of the response or raises (src/app.py lines 104-111). -/
structure CompletionClient where
  create : String → Except String String

/-- The fixed instructional prompt of `generate_review` (src/app.py lines
91-101) wrapped around the formatted PR text. -/
def reviewPrompt (pr_text : String) : String :=
  "Please review this GitHub Pull Request and provide:\n\n" ++
  "1. **Summary**: A brief overview of what this PR does\n" ++
  "2. **Code Quality**: Assessment of code quality, patterns, and best practices\n" ++
  "3. **Potential Issues**: Any bugs, security concerns, or problems you identify\n" ++
  "4. **Suggestions**: Recommendations for improvements\n" ++
  "5. **Overall Assessment**: Your overall recommendation (Approve, Request Changes, Comment)\n\n" ++
  "Here's the PR data:\n\n" ++ pr_text

/-- `GitHubPRReviewer.generate_review` (src/app.py lines 87-113).  The client
is `None` exactly when no API key is configured (line 20).  The second
component counts the completion calls issued during the invocation. -/
def generate_review (client : Option CompletionClient) (pr_text : String) : String × Nat :=
  match client with
  | none => ("Claude API key not configured", 0)
  | some c =>
    match c.create (reviewPrompt pr_text) with
    | .ok text => (text, 1)
    | .error e => ("Error generating review: " ++ e, 1)

/-- A 2xx HTTP status, as the spec's phrase "non-2xx" reads. -/
def is2xx (s : Nat) : Bool := decide (200 ≤ s ∧ s < 300)

/-- A file record carrying every field the formatter's per-file loop reads. -/
def wellFormedFile (f : JVal) : Bool :=
  (pyGetItem f "filename").isOk && (pyGetItem f "status").isOk &&
  (pyGetItem f "additions").isOk && (pyGetItem f "deletions").isOk

/-- A `PullRequestData` value carrying every field `format_pr_for_review`
reads: `pr` and `files` entries, the six metadata fields (with `user.login`),
and `files` a list of well-formed file records. -/
def wellFormedData (d : JVal) : Bool :=
  match pyGetItem d "pr", pyGetItem d "files" with
  | .ok pr, .ok files =>
    (pyGetItem pr "title").isOk &&
    (match pyGetItem pr "user" with
     | .ok u => (pyGetItem u "login").isOk
     | .error _ => false) &&
    (pyGetItem pr "state").isOk && (pyGetItem pr "created_at").isOk &&
    (pyGetItem pr "updated_at").isOk && (pyGetItem pr "body").isOk &&
    (match files with
     | .list xs => xs.toList.all wellFormedFile
     | _ => false)
  | _, _ => false

/-- Concatenation of a list of strings, used to state how the formatter's
output decomposes into the header followed by one segment per file. -/
def strConcat : List String → String
  | [] => ""
  | s :: tl => s ++ strConcat tl

/-- Holds when the string does not begin with a decimal digit, so that the
digit group of the URL pattern stops exactly at the end of the intended
number. -/
def noDigitHead (s : String) : Bool :=
  match s.data.head? with
  | some c => !c.isDigit
  | none => true

/-- Example PR metadata record (spec §8 item 7: title "Fix bug", author
"alice", state "open") with a null body. -/
def prMetaEx : JVal := .dict (jdict [
  ("title", .str "Fix bug"),
  ("user", .dict (jdict [("login", .str "alice")])),
  ("state", .str "open"),
  ("created_at", .str "2024-01-01T00:00:00Z"),
  ("updated_at", .str "2024-01-02T00:00:00Z"),
  ("body", .null)])

/-- Example added file carrying a patch. -/
def fileAddedEx : JVal := .dict (jdict [
  ("filename", .str "new.py"),
  ("status", .str "added"),
  ("additions", .int 10),
  ("deletions", .int 0),
  ("patch", .str "@@ -0,0 +1,10 @@")])

/-- Example removed file without a patch. -/
def fileRemovedEx : JVal := .dict (jdict [
  ("filename", .str "old.py"),
  ("status", .str "removed"),
  ("additions", .int 0),
  ("deletions", .int 12)])

/-- Example removed file that still carries a patch field. -/
def fileRemovedPatchEx : JVal := .dict (jdict [
  ("filename", .str "old.py"),
  ("status", .str "removed"),
  ("additions", .int 0),
  ("deletions", .int 12),
  ("patch", .str "@@ -1,12 +0,0 @@")])

/-- Example `PullRequestData` with an empty file list. -/
def dataEx0 : JVal := .dict (jdict [("pr", prMetaEx), ("files", .list .nil)])

/-- Example `PullRequestData` with one added and one removed file. -/
def dataEx8 : JVal := .dict (jdict [
  ("pr", prMetaEx),
  ("files", .list (jlist [fileAddedEx, fileRemovedEx]))])

/-! Helper lemmas. -/

theorem strMkData (s : String) : String.mk s.data = s := by
  cases s
  rfl

theorem strMkNeEmpty {l : List Char} (h : l ≠ []) : String.mk l ≠ "" := by
  intro hc
  exact h (congrArg String.data hc)

theorem bindOk {ε α β : Type} (a : α) (f : α → Except ε β) :
    (Except.ok a >>= f) = f a := rfl

theorem bindErr {ε α β : Type} (e : ε) (f : α → Except ε β) :
    ((Except.error e : Except ε α) >>= f) = Except.error e := rfl

theorem isOk_exists {ε α : Type} {e : Except ε α} (h : e.isOk = true) :
    ∃ v, e = Except.ok v := by
  cases e with
  | error _ => simp [Except.isOk, Except.toBool] at h
  | ok v => exact ⟨v, rfl⟩

theorem leadMatch_append_self (p t : List Char) : leadMatch p (p ++ t) = true := by
  induction p with
  | nil => rfl
  | cons c cs ih => simp [leadMatch, ih]

theorem findSub_self_append (p t : List Char) : findSub p (p ++ t) = true := by
  cases p with
  | nil =>
    cases t with
    | nil => rfl
    | cons c cs => simp [findSub, leadMatch]
  | cons c cs =>
    simp only [List.cons_append, findSub, Bool.or_eq_true]
    exact Or.inl (leadMatch_append_self (c :: cs) t)

theorem findSub_append_left (a : List Char) {p t : List Char}
    (h : findSub p t = true) : findSub p (a ++ t) = true := by
  induction a with
  | nil => simpa using h
  | cons c cs ih =>
    simp only [List.cons_append, findSub, Bool.or_eq_true]
    exact Or.inr ih

theorem occursInB_here (pat b : String) : occursInB pat (pat ++ b) = true := by
  unfold occursInB
  rw [String.data_append]
  exact findSub_self_append pat.data b.data

theorem occursInB_mono_left {pat t : String} (a : String)
    (h : occursInB pat t = true) : occursInB pat (a ++ t) = true := by
  unfold occursInB at h ⊢
  rw [String.data_append]
  exact findSub_append_left a.data h

theorem dropLit_append (p t : List Char) : dropLit p (p ++ t) = some t := by
  induction p with
  | nil => rfl
  | cons c cs ih => simp [dropLit, ih]

theorem takeWhile_middle {p : Char → Bool} {l : List Char} (d : Char) (t : List Char)
    (hl : ∀ c ∈ l, p c = true) (hd : p d = false) :
    (l ++ d :: t).takeWhile p = l := by
  induction l with
  | nil => simp [List.takeWhile, hd]
  | cons c cs ih =>
    have hc : p c = true := hl c (by simp)
    simp only [List.cons_append, List.takeWhile, hc]
    have := ih (fun c hm => hl c (by simp [hm]))
    simp [this]

theorem dropWhile_middle {p : Char → Bool} {l : List Char} (d : Char) (t : List Char)
    (hl : ∀ c ∈ l, p c = true) (hd : p d = false) :
    (l ++ d :: t).dropWhile p = d :: t := by
  induction l with
  | nil => simp [List.dropWhile, hd]
  | cons c cs ih =>
    have hc : p c = true := hl c (by simp)
    have := ih (fun c hm => hl c (by simp [hm]))
    simp only [List.cons_append, List.dropWhile, hc]
    exact this

theorem takeWhile_end {p : Char → Bool} {l t : List Char}
    (hl : ∀ c ∈ l, p c = true)
    (ht : ∀ c, t.head? = some c → p c = false) :
    (l ++ t).takeWhile p = l := by
  induction l with
  | nil =>
    cases t with
    | nil => rfl
    | cons c cs =>
      have := ht c rfl
      simp [List.takeWhile, this]
  | cons c cs ih =>
    have hc : p c = true := hl c (by simp)
    have := ih (fun c hm => hl c (by simp [hm]))
    simp only [List.cons_append, List.takeWhile, hc]
    simp [this]

theorem all_takeWhile (p : Char → Bool) (l : List Char) :
    (l.takeWhile p).all p = true := by
  induction l with
  | nil => rfl
  | cons c cs ih =>
    by_cases hc : p c = true
    · simp [List.takeWhile, hc, ih]
    · simp only [Bool.not_eq_true] at hc
      simp [List.takeWhile, hc]

theorem pyGetItem_dict {f : JVal} {k : String} {v : JVal}
    (h : pyGetItem f k = Except.ok v) :
    ∃ kvs, f = JVal.dict kvs ∧ kvs.lookup k = some v := by
  cases f with
  | dict kvs =>
    refine ⟨kvs, rfl, ?_⟩
    cases hv : kvs.lookup k with
    | none => simp [pyGetItem, hv] at h
    | some w =>
      simp only [pyGetItem, hv, Except.ok.injEq] at h
      exact congrArg some h
  | null => exact Except.noConfusion h
  | bool b => exact Except.noConfusion h
  | int n => exact Except.noConfusion h
  | str s => exact Except.noConfusion h
  | list xs => exact Except.noConfusion h

theorem pyGetItem_lookup {kvs : JDict} {k : String} {v : JVal}
    (h : kvs.lookup k = some v) :
    pyGetItem (JVal.dict kvs) k = Except.ok v := by
  simp [pyGetItem, h]

theorem formatFile_total {f : JVal} (h : wellFormedFile f = true) :
    ∃ s, formatFile f = Except.ok s := by
  unfold wellFormedFile at h
  simp only [Bool.and_eq_true] at h
  obtain ⟨⟨⟨h1, h2⟩, h3⟩, h4⟩ := h
  obtain ⟨fn, hfn⟩ := isOk_exists h1
  obtain ⟨st, hst⟩ := isOk_exists h2
  obtain ⟨ad, had⟩ := isOk_exists h3
  obtain ⟨de, hde⟩ := isOk_exists h4
  obtain ⟨kvs, rfl, hlk⟩ := pyGetItem_dict hfn
  have hbase : ∃ b, fileSegmentBase (JVal.dict kvs) = Except.ok b := by
    unfold fileSegmentBase
    rw [hfn, bindOk, hst, bindOk, had, bindOk, hde, bindOk]
    exact ⟨_, rfl⟩
  obtain ⟨b, hb⟩ := hbase
  unfold formatFile
  rw [hb, bindOk, hst, bindOk]
  have hhk : pyHasKey (JVal.dict kvs) "patch" = Except.ok (kvs.lookup "patch").isSome := rfl
  by_cases hne : pyNeStr st "removed" = true
  · rw [hne]
    simp only [if_true, hhk, bindOk]
    cases hp : (kvs.lookup "patch").isSome with
    | false => exact ⟨b, rfl⟩
    | true =>
      obtain ⟨pv, hpv⟩ := Option.isSome_iff_exists.mp hp
      rw [pyGetItem_lookup hpv]
      exact ⟨_, rfl⟩
  · simp only [Bool.not_eq_true] at hne
    rw [hne]
    exact ⟨b, rfl⟩

theorem pureBind {ε α β : Type} (a : α) (f : α → Except ε β) :
    ((pure a : Except ε α) >>= f) = f a := rfl

theorem foldFormat_eq (items : List JVal) (acc : String) :
    items.foldlM (fun acc file => do
      let seg ← formatFile file
      pure (acc ++ seg)) acc
      = (do
          let segs ← items.mapM formatFile
          pure (acc ++ strConcat segs) : Except String String) := by
  induction items generalizing acc with
  | nil =>
    simp only [List.foldlM_nil, List.mapM_nil, pureBind, strConcat]
    rw [String.append_empty]
  | cons f tl ih =>
    simp only [List.foldlM_cons, List.mapM_cons]
    cases hf : formatFile f with
    | error e => simp [hf, bindErr]
    | ok s =>
      simp only [hf, bindOk, pureBind]
      rw [ih (acc ++ s)]
      cases hm : tl.mapM formatFile with
      | error e => simp [hm, bindErr]
      | ok segs => simp [hm, bindOk, pureBind, strConcat, String.append_assoc]

theorem foldFormat_ok_decomp {items : List JVal} {acc out : String}
    (h : items.foldlM (fun acc file => do
      let seg ← formatFile file
      pure (acc ++ seg)) acc = Except.ok out) :
    ∃ t, out = acc ++ t := by
  rw [foldFormat_eq] at h
  cases hm : items.mapM formatFile with
  | error e =>
    rw [hm, bindErr] at h
    exact Except.noConfusion h
  | ok segs =>
    rw [hm, bindOk] at h
    injection h with h
    exact ⟨strConcat segs, h.symm⟩

theorem foldFormat_total {items : List JVal}
    (hwf : ∀ f ∈ items, wellFormedFile f = true) (acc : String) :
    ∃ s, items.foldlM (fun acc file => do
      let seg ← formatFile file
      pure (acc ++ seg)) acc = Except.ok s := by
  induction items generalizing acc with
  | nil => exact ⟨acc, rfl⟩
  | cons f tl ih =>
    obtain ⟨s, hs⟩ := formatFile_total (hwf f (by simp))
    obtain ⟨t, ht⟩ := ih (fun g hg => hwf g (by simp [hg])) (acc ++ s)
    refine ⟨t, ?_⟩
    simp only [List.foldlM_cons, hs, bindOk, pureBind]
    exact ht

theorem optBind_eq_some {α β : Type} {o : Option α} {f : α → Option β} {b : β} :
    (o >>= f) = some b ↔ ∃ a, o = some a ∧ f a = some b := by
  cases o <;> simp

theorem takeGroup_inv {p : Char → Bool} {cs g rest : List Char}
    (h : takeGroup p cs = some (g, rest)) :
    g = cs.takeWhile p ∧ g ≠ [] := by
  unfold takeGroup at h
  split at h
  · exact Option.noConfusion h
  · rename_i hne
    simp only [Option.some.injEq, Prod.mk.injEq] at h
    obtain ⟨h1, h2⟩ := h
    refine ⟨h1.symm, ?_⟩
    intro hg
    rw [hg] at h1
    rw [h1] at hne
    exact hne rfl

theorem takeGroup_middle {p : Char → Bool} {l : List Char} (d : Char) (t : List Char)
    (hl : ∀ c ∈ l, p c = true) (hd : p d = false) (hne : l ≠ []) :
    takeGroup p (l ++ d :: t) = some (l, d :: t) := by
  unfold takeGroup
  rw [takeWhile_middle d t hl hd, dropWhile_middle d t hl hd]
  cases l with
  | nil => exact absurd rfl hne
  | cons c cs => rfl

theorem dropWhile_end {p : Char → Bool} {l t : List Char}
    (hl : ∀ c ∈ l, p c = true)
    (ht : ∀ c, t.head? = some c → p c = false) :
    (l ++ t).dropWhile p = t := by
  induction l with
  | nil =>
    cases t with
    | nil => rfl
    | cons c cs =>
      have := ht c rfl
      simp [List.dropWhile, this]
  | cons c cs ih =>
    have hc : p c = true := hl c (by simp)
    have := ih (fun c hm => hl c (by simp [hm]))
    simp only [List.cons_append, List.dropWhile, hc]
    exact this

theorem takeGroup_end {p : Char → Bool} {l t : List Char}
    (hl : ∀ c ∈ l, p c = true)
    (ht : ∀ c, t.head? = some c → p c = false) (hne : l ≠ []) :
    takeGroup p (l ++ t) = some (l, t) := by
  unfold takeGroup
  rw [takeWhile_end hl ht, dropWhile_end hl ht]
  cases l with
  | nil => exact absurd rfl hne
  | cons c cs => rfl

theorem bind_ok_inv {ε α β : Type} {e : Except ε α} {f : α → Except ε β} {b : β}
    (h : (e >>= f) = Except.ok b) : ∃ a, e = Except.ok a ∧ f a = Except.ok b := by
  cases e with
  | error err => rw [bindErr] at h; exact Except.noConfusion h
  | ok a =>
    rw [bindOk] at h
    exact ⟨a, rfl, h⟩

theorem prHeader_no_body (title login state created updated body : JVal) (nfiles : Nat)
    (hb : body = JVal.null ∨ body = JVal.str "") :
    ∃ a b, prHeader title login state created updated body nfiles
      = a ++ ("No description provided" ++ b) := by
  refine ⟨"\n## Pull Request Information\n**Title:** " ++ pyStr title ++
    "\n**Author:** " ++ pyStr login ++
    "\n**State:** " ++ pyStr state ++
    "\n**Created:** " ++ pyStr created ++
    "\n**Updated:** " ++ pyStr updated ++
    "\n\n**Description:**\n",
    "\n\n## Files Changed (" ++ toString nfiles ++ " files):\n", ?_⟩
  have hfalse : truthy body = false := by
    rcases hb with rfl | rfl <;> rfl
  unfold prHeader
  rw [hfalse]
  simp only [String.append_assoc]
  rfl

/-! Claim theorems. -/

/-- C1 (counterexample): the claim says the URL Parser returns `number` as a
decimal integer, equal to the integer 42 for the example URL.  The code
returns `match.groups()` unchanged, so the third component of
`parse_github_url` is the *string* `"42"`, which is not the integer 42. -/
theorem c1_counterexample :
    (parse_github_url "https://github.com/octocat/Hello-World/pull/42").2.2 ≠ JVal.int 42 ∧
    parse_github_url "https://github.com/octocat/Hello-World/pull/42"
      = (JVal.str "octocat", JVal.str "Hello-World", JVal.str "42") :=
  ⟨fun h => JVal.noConfusion h, rfl⟩

/-- C1 (amended): on every matching input the URL Parser returns the captured
owner and repo strings together with the *digit string* of the PR number (a
nonempty string of decimal digits, not an integer); in particular for
`https://github.com/octocat/Hello-World/pull/42` it returns owner "octocat",
repo "Hello-World", and the digit string "42". -/
theorem c1_amended :
    (∀ url owner repo num, matchPR url = some (owner, repo, num) →
        num ≠ "" ∧ num.data.all Char.isDigit = true) ∧
    parse_github_url "https://github.com/octocat/Hello-World/pull/42"
      = (JVal.str "octocat", JVal.str "Hello-World", JVal.str "42") := by
  constructor
  · intro url owner repo num h
    unfold matchPR at h
    rw [optBind_eq_some] at h
    obtain ⟨rest1, hd1, h⟩ := h
    try dsimp only at h
    rw [optBind_eq_some] at h
    obtain ⟨⟨ow, rest2⟩, hg1, h⟩ := h
    try dsimp only at h
    rw [optBind_eq_some] at h
    obtain ⟨rest3, hd2, h⟩ := h
    try dsimp only at h
    rw [optBind_eq_some] at h
    obtain ⟨⟨re, rest4⟩, hg2, h⟩ := h
    try dsimp only at h
    rw [optBind_eq_some] at h
    obtain ⟨rest5, hd3, h⟩ := h
    try dsimp only at h
    rw [optBind_eq_some] at h
    obtain ⟨⟨nu, rest6⟩, hg3, h⟩ := h
    try dsimp only at h
    injection h with h
    simp only [Prod.mk.injEq] at h
    obtain ⟨ho, hr, hn⟩ := h
    obtain ⟨hnu, hnne⟩ := takeGroup_inv hg3
    subst hn
    refine ⟨strMkNeEmpty hnne, ?_⟩
    show nu.all Char.isDigit = true
    rw [hnu]
    exact all_takeWhile _ _
  · rfl

/-- C1 (witness): the amended theorem applied to the example URL, whose
matched digit group "42" is a nonempty all-digit string. -/
theorem c1_witness :
    ("42" : String) ≠ "" ∧ ("42" : String).data.all Char.isDigit = true :=
  c1_amended.1 "https://github.com/octocat/Hello-World/pull/42" "octocat" "Hello-World" "42"
    (by decide)

/-- C7: with no configured model credential (`client = none`, src/app.py
lines 88-89), `generate_review` returns the fixed not-configured message,
returns (rather than raising), and issues zero completion calls. -/
theorem c7_no_credential (pr_text : String) :
    generate_review none pr_text = ("Claude API key not configured", 0) := rfl

/-- C9: every invocation of `fetch_pr_data` returns either a record with no
error or an error message with no record, never both or neither. -/
theorem c9_exclusive (r1 r2 : HttpResult) :
    (∃ d, fetch_pr_data r1 r2 = (some d, none)) ∨
    (∃ e, fetch_pr_data r1 r2 = (none, some e)) := by
  cases r1 with
  | exn e => exact Or.inr ⟨_, rfl⟩
  | resp s1 b1 =>
    cases r2 with
    | exn e => exact Or.inr ⟨_, rfl⟩
    | resp s2 b2 =>
      by_cases h1 : s1 = 200
      · subst h1
        by_cases h2 : s2 = 200
        · subst h2
          cases b1 with
          | error e => exact Or.inr ⟨"Error: " ++ e, rfl⟩
          | ok v1 =>
            cases b2 with
            | error e => exact Or.inr ⟨"Error: " ++ e, rfl⟩
            | ok v2 =>
              exact Or.inl ⟨JVal.dict (.cons "pr" v1 (.cons "files" v2 .nil)), rfl⟩
        · refine Or.inr ⟨"Error fetching PR files: " ++ toString s2, ?_⟩
          simp [fetch_pr_data, h2]
      · refine Or.inr ⟨"Error fetching PR: " ++ toString s1, ?_⟩
        simp [fetch_pr_data, h1]

/-- C2 (counterexample): the claim says that whenever both calls return a 2xx
status with well-formed JSON bodies, `fetch_pr_data` returns data and no
error.  The code compares the status against 200 exactly, so a 201 response
with a well-formed body — a 2xx status — still yields an error and no data. -/
theorem c2_counterexample :
    is2xx 201 = true ∧ is2xx 200 = true ∧
    fetch_pr_data (.resp 201 (.ok .null)) (.resp 200 (.ok .null))
      = (none, some "Error fetching PR: 201") :=
  ⟨rfl, rfl, rfl⟩

/-- C2 (amended): `fetch_pr_data` returns no error exactly when both calls
return a response with status exactly 200 and a well-formed JSON body; it
returns no data exactly in the complementary cases (network error from either
call, a status other than 200, or a malformed body). -/
theorem c2_amended (r1 r2 : HttpResult) :
    ((fetch_pr_data r1 r2).2 = none ↔
      ∃ b1 b2, r1 = HttpResult.resp 200 (Except.ok b1) ∧
        r2 = HttpResult.resp 200 (Except.ok b2)) ∧
    ((fetch_pr_data r1 r2).1 = none ↔
      ¬ ∃ b1 b2, r1 = HttpResult.resp 200 (Except.ok b1) ∧
        r2 = HttpResult.resp 200 (Except.ok b2)) := by
  cases r1 with
  | exn e => constructor <;> simp [fetch_pr_data]
  | resp s1 b1 =>
    cases r2 with
    | exn e => constructor <;> simp [fetch_pr_data]
    | resp s2 b2 =>
      by_cases h1 : s1 = 200
      · subst h1
        by_cases h2 : s2 = 200
        · subst h2
          cases b1 with
          | error e => constructor <;> simp [fetch_pr_data]
          | ok v1 =>
            cases b2 with
            | error e => constructor <;> simp [fetch_pr_data]
            | ok v2 => constructor <;> simp [fetch_pr_data]
        · constructor <;> simp [fetch_pr_data, h2]
      · constructor <;> simp [fetch_pr_data, h1]

/-- C4 (counterexample): the claim says a 404 on the metadata call always
yields an error message containing "404".  But both GET calls are issued
before any status check (src/app.py lines 39-40), so when the files call
raises a network error its exception wins and the returned message need not
mention 404 at all. -/
theorem c4_counterexample :
    fetch_pr_data (.resp 404 (.ok .null)) (.exn "Connection timed out")
      = (none, some "Error: Connection timed out") ∧
    occursInB "404" "Error: Connection timed out" = false :=
  ⟨rfl, rfl⟩

/-- C4 (amended): if the metadata call returns HTTP status 404 and the files
call returns a response (does not raise a network error), then
`fetch_pr_data` returns no data and an error message containing "404",
whatever the bodies and the files status are. -/
theorem c4_amended (b1 : Except String JVal) (s2 : Nat) (b2 : Except String JVal) :
    fetch_pr_data (.resp 404 b1) (.resp s2 b2) = (none, some "Error fetching PR: 404") ∧
    occursInB "404" "Error fetching PR: 404" = true :=
  ⟨rfl, rfl⟩

/-- C5: for every file entry whose status is the string "removed", the
formatter emits only the header lines for that file (filename, status,
addition/deletion counts) and never appends the fenced diff block, even when
the entry carries a patch field (src/app.py lines 82-83). -/
theorem c5_removed_no_diff (file : JVal)
    (h : pyGetItem file "status" = Except.ok (JVal.str "removed")) :
    formatFile file = fileSegmentBase file := by
  unfold formatFile
  cases hb : fileSegmentBase file with
  | error e => rw [bindErr]
  | ok base =>
    rw [bindOk, h, bindOk]
    rfl

/-- C5 (witness): the theorem applied to a removed file that carries a patch
field; its key "patch" is present yet its segment is just the base segment. -/
theorem c5_witness :
    pyHasKey fileRemovedPatchEx "patch" = Except.ok true ∧
    formatFile fileRemovedPatchEx = fileSegmentBase fileRemovedPatchEx :=
  ⟨rfl, c5_removed_no_diff fileRemovedPatchEx rfl⟩

/-- C3 (counterexample): the claim says every stage, and in particular the
Prompt Formatter, returns a value or error message even when expected fields
are missing.  `format_pr_for_review` performs bare dict subscripting with no
try/except, so a metadata record without a "title" key makes it raise an
uncaught KeyError (modelled as the `Except.error` outcome) instead of
returning a value. -/
theorem c3_counterexample :
    format_pr_for_review (.dict (.cons "pr" (.dict .nil) (.cons "files" (.list .nil) .nil)))
      = Except.error "KeyError: 'title'" := rfl

/-- C3 (amended): the URL Parser, the PR Data Fetcher and the Review
Generator are total functions returning values or error messages; the Prompt
Formatter is total only on `PullRequestData` inputs that carry every field it
reads (pr and files entries, the six metadata fields with `user.login`, and
per file the filename, status, additions and deletions) — on such inputs it
returns a value, while a missing field raises an uncaught KeyError. -/
theorem c3_formatter_total (d : JVal) (h : wellFormedData d = true) :
    ∃ s, format_pr_for_review d = Except.ok s := by
  unfold wellFormedData at h
  split at h
  · rename_i pr files hpr hfiles
    simp only [Bool.and_eq_true] at h
    obtain ⟨⟨⟨⟨⟨⟨h1, h2⟩, h3⟩, h4⟩, h5⟩, h6⟩, h7⟩ := h
    split at h2
    · rename_i u huser
      split at h7
      · rename_i xs
        obtain ⟨tv, htv⟩ := isOk_exists h1
        obtain ⟨lv, hlv⟩ := isOk_exists h2
        obtain ⟨sv, hsv⟩ := isOk_exists h3
        obtain ⟨cv, hcv⟩ := isOk_exists h4
        obtain ⟨uv, huv⟩ := isOk_exists h5
        obtain ⟨bv, hbv⟩ := isOk_exists h6
        have hAll : ∀ f ∈ xs.toList, wellFormedFile f = true := List.all_eq_true.mp h7
        obtain ⟨s, hs⟩ := foldFormat_total hAll
          (prHeader tv lv sv cv uv bv xs.toList.length)
        refine ⟨s, ?_⟩
        unfold format_pr_for_review
        rw [hpr, bindOk, hfiles, bindOk, htv, bindOk, huser, bindOk, hlv, bindOk,
          hsv, bindOk, hcv, bindOk, huv, bindOk, hbv, bindOk]
        rw [show pyLen (JVal.list xs) = Except.ok xs.toList.length from rfl, bindOk]
        rw [show pyIter (JVal.list xs) = Except.ok xs.toList from rfl, bindOk]
        exact hs
      · exact Bool.noConfusion h7
    · exact Bool.noConfusion h2
  · exact Bool.noConfusion h

/-- C3 (witness): the amended totality applied to a concrete well-formed
`PullRequestData` with one added and one removed file. -/
theorem c3_witness : ∃ s, format_pr_for_review dataEx8 = Except.ok s :=
  c3_formatter_total dataEx8 rfl

/-- C6: whenever the PR body field is null or the empty string (both falsy in
Python, so `pr['body'] or 'No description provided'` picks the placeholder,
src/app.py line 72), any successful formatter output contains the literal
text "No description provided". -/
theorem c6_placeholder (data pr body : JVal) (out : String)
    (hpr : pyGetItem data "pr" = Except.ok pr)
    (hbody : pyGetItem pr "body" = Except.ok body)
    (hb : body = JVal.null ∨ body = JVal.str "")
    (hout : format_pr_for_review data = Except.ok out) :
    occursInB "No description provided" out = true := by
  unfold format_pr_for_review at hout
  obtain ⟨pr2, hpr2, hout⟩ := bind_ok_inv hout
  rw [hpr] at hpr2
  injection hpr2 with hpr2
  subst hpr2
  obtain ⟨files, hfiles, hout⟩ := bind_ok_inv hout
  obtain ⟨title, htitle, hout⟩ := bind_ok_inv hout
  obtain ⟨user, huser, hout⟩ := bind_ok_inv hout
  obtain ⟨login, hlogin, hout⟩ := bind_ok_inv hout
  obtain ⟨st, hstate, hout⟩ := bind_ok_inv hout
  obtain ⟨created, hcreated, hout⟩ := bind_ok_inv hout
  obtain ⟨updated, hupdated, hout⟩ := bind_ok_inv hout
  obtain ⟨body2, hbody2, hout⟩ := bind_ok_inv hout
  rw [hbody] at hbody2
  injection hbody2 with hbody2
  subst hbody2
  obtain ⟨nfiles, hn, hout⟩ := bind_ok_inv hout
  obtain ⟨items, hitems, hout⟩ := bind_ok_inv hout
  obtain ⟨t, rfl⟩ := foldFormat_ok_decomp hout
  obtain ⟨a, b, hab⟩ := prHeader_no_body title login st created updated body nfiles hb
  rw [hab, String.append_assoc, String.append_assoc]
  exact occursInB_mono_left a (occursInB_here _ _)

/-- C6 (witness): the theorem applied to a concrete record with a null body;
the formatter's actual output contains the placeholder. -/
theorem c6_witness :
    occursInB "No description provided"
      "\n## Pull Request Information\n**Title:** Fix bug\n**Author:** alice\n**State:** open\n**Created:** 2024-01-01T00:00:00Z\n**Updated:** 2024-01-02T00:00:00Z\n\n**Description:**\nNo description provided\n\n## Files Changed (0 files):\n"
      = true :=
  c6_placeholder dataEx0 prMetaEx .null
    "\n## Pull Request Information\n**Title:** Fix bug\n**Author:** alice\n**State:** open\n**Created:** 2024-01-01T00:00:00Z\n**Updated:** 2024-01-02T00:00:00Z\n\n**Description:**\nNo description provided\n\n## Files Changed (0 files):\n"
    rfl rfl (Or.inl rfl) rfl

/-- C8: every successful formatter output decomposes as the header followed
by the concatenation, in input order, of one segment per entry of the files
list: the segments come from mapping `formatFile` over the files sequence
itself, so filenames appear in exactly the input order, never reordered. -/
theorem c8_order (d : JVal) (out : String) (fs : JList)
    (hout : format_pr_for_review d = Except.ok out)
    (hfiles : pyGetItem d "files" = Except.ok (JVal.list fs)) :
    ∃ header segs, fs.toList.mapM formatFile = Except.ok segs ∧
      out = header ++ strConcat segs := by
  unfold format_pr_for_review at hout
  obtain ⟨pr, hpr, hout⟩ := bind_ok_inv hout
  obtain ⟨files2, hfiles2, hout⟩ := bind_ok_inv hout
  rw [hfiles] at hfiles2
  injection hfiles2 with hfiles2
  subst hfiles2
  obtain ⟨title, htitle, hout⟩ := bind_ok_inv hout
  obtain ⟨user, huser, hout⟩ := bind_ok_inv hout
  obtain ⟨login, hlogin, hout⟩ := bind_ok_inv hout
  obtain ⟨st, hstate, hout⟩ := bind_ok_inv hout
  obtain ⟨created, hcreated, hout⟩ := bind_ok_inv hout
  obtain ⟨updated, hupdated, hout⟩ := bind_ok_inv hout
  obtain ⟨body, hbody, hout⟩ := bind_ok_inv hout
  obtain ⟨nfiles, hn, hout⟩ := bind_ok_inv hout
  obtain ⟨items, hitems, hout⟩ := bind_ok_inv hout
  have hit : items = fs.toList := by
    rw [show pyIter (JVal.list fs) = Except.ok fs.toList from rfl] at hitems
    injection hitems with hitems
    exact hitems.symm
  subst hit
  rw [foldFormat_eq] at hout
  obtain ⟨segs, hsegs, hout⟩ := bind_ok_inv hout
  injection hout with hout
  exact ⟨prHeader title login st created updated body nfiles, segs, hsegs, hout.symm⟩

set_option maxRecDepth 8192 in
/-- C8 (witness): the theorem applied to a concrete record with two files;
its output splits into a header and the two per-file segments in input
order. -/
theorem c8_witness :
    ∃ header segs,
      (jlist [fileAddedEx, fileRemovedEx]).toList.mapM formatFile = Except.ok segs ∧
      "\n## Pull Request Information\n**Title:** Fix bug\n**Author:** alice\n**State:** open\n**Created:** 2024-01-01T00:00:00Z\n**Updated:** 2024-01-02T00:00:00Z\n\n**Description:**\nNo description provided\n\n## Files Changed (2 files):\n\n### new.py\n- **Status:** added\n- **Additions:** 10, **Deletions:** 0\n\n**Changes:**\n```diff\n@@ -0,0 +1,10 @@\n```\n\n### old.py\n- **Status:** removed\n- **Additions:** 0, **Deletions:** 12"
        = header ++ strConcat segs :=
  c8_order dataEx8
    "\n## Pull Request Information\n**Title:** Fix bug\n**Author:** alice\n**State:** open\n**Created:** 2024-01-01T00:00:00Z\n**Updated:** 2024-01-02T00:00:00Z\n\n**Description:**\nNo description provided\n\n## Files Changed (2 files):\n\n### new.py\n- **Status:** added\n- **Additions:** 10, **Deletions:** 0\n\n**Changes:**\n```diff\n@@ -0,0 +1,10 @@\n```\n\n### old.py\n- **Status:** removed\n- **Additions:** 0, **Deletions:** 12"
    (jlist [fileAddedEx, fileRemovedEx]) rfl rfl

theorem optSomeBind {α β : Type} (a : α) (f : α → Option β) :
    ((some a : Option α) >>= f) = f a := rfl

/-- C10: `re.match` anchors only at the start of the string, so every string
beginning with a well-formed PR URL parses: for nonempty slash-free owner and
repo segments and a nonempty digit group, any trailing text that does not
begin with a further digit is ignored and the parser returns exactly the
owner, repo and digit strings. -/
theorem c10_trailing (owner repo num rest : String)
    (h1 : owner.data ≠ []) (h2 : owner.data.all (· != '/') = true)
    (h3 : repo.data ≠ []) (h4 : repo.data.all (· != '/') = true)
    (h5 : num.data ≠ []) (h6 : num.data.all Char.isDigit = true)
    (h7 : noDigitHead rest = true) :
    parse_github_url ("https://github.com/" ++ owner ++ "/" ++ repo ++ "/pull/" ++ num ++ rest)
      = (JVal.str owner, JVal.str repo, JVal.str num) := by
  have hol : ∀ c ∈ owner.data, (c != '/') = true := List.all_eq_true.mp h2
  have hrl : ∀ c ∈ repo.data, (c != '/') = true := List.all_eq_true.mp h4
  have hnl : ∀ c ∈ num.data, Char.isDigit c = true := List.all_eq_true.mp h6
  have hslash : (('/' : Char) != '/') = false := by decide
  have hrest : ∀ c, rest.data.head? = some c → Char.isDigit c = false := by
    intro c hc
    unfold noDigitHead at h7
    rw [hc] at h7
    simpa using h7
  have hdata : ("https://github.com/" ++ owner ++ "/" ++ repo ++ "/pull/" ++ num ++ rest).data
      = "https://github.com/".data ++ (owner.data ++ ('/' :: (repo.data
        ++ ("/pull/".data ++ (num.data ++ rest.data))))) := by
    simp only [String.data_append, List.append_assoc]
    rfl
  have hmain : matchPR ("https://github.com/" ++ owner ++ "/" ++ repo ++ "/pull/" ++ num ++ rest)
      = some (⟨owner.data⟩, ⟨repo.data⟩, ⟨num.data⟩) := by
    unfold matchPR
    rw [hdata, dropLit_append, optSomeBind]
    rw [takeGroup_middle '/' _ hol hslash h1, optSomeBind]
    dsimp only
    rw [show ('/' :: (repo.data ++ ("/pull/".data ++ (num.data ++ rest.data))))
        = "/".data ++ (repo.data ++ ("/pull/".data ++ (num.data ++ rest.data))) from rfl]
    rw [dropLit_append, optSomeBind]
    rw [show ("/pull/".data ++ (num.data ++ rest.data))
        = '/' :: ("pull/".data ++ (num.data ++ rest.data)) from rfl]
    rw [takeGroup_middle '/' _ hrl hslash h3, optSomeBind]
    dsimp only
    rw [show ('/' :: ("pull/".data ++ (num.data ++ rest.data)))
        = "/pull/".data ++ (num.data ++ rest.data) from rfl]
    rw [dropLit_append, optSomeBind]
    rw [takeGroup_end hnl hrest h5, optSomeBind]
    rfl
  unfold parse_github_url
  rw [hmain]

/-- C10 (witness): the three example inputs of the claim — a well-formed PR
URL for owner "o", repo "r", number 123 followed by "/files", by "?tab=x",
and by "abc" — all parse to owner "o", repo "r" and digit string "123". -/
theorem c10_witness :
    parse_github_url ("https://github.com/" ++ "o" ++ "/" ++ "r" ++ "/pull/" ++ "123" ++ "/files")
      = (JVal.str "o", JVal.str "r", JVal.str "123") ∧
    parse_github_url ("https://github.com/" ++ "o" ++ "/" ++ "r" ++ "/pull/" ++ "123" ++ "?tab=x")
      = (JVal.str "o", JVal.str "r", JVal.str "123") ∧
    parse_github_url ("https://github.com/" ++ "o" ++ "/" ++ "r" ++ "/pull/" ++ "123" ++ "abc")
      = (JVal.str "o", JVal.str "r", JVal.str "123") :=
  ⟨c10_trailing "o" "r" "123" "/files" (by decide) (by decide) (by decide) (by decide)
      (by decide) (by decide) (by decide),
   c10_trailing "o" "r" "123" "?tab=x" (by decide) (by decide) (by decide) (by decide)
      (by decide) (by decide) (by decide),
   c10_trailing "o" "r" "123" "abc" (by decide) (by decide) (by decide) (by decide)
      (by decide) (by decide) (by decide)⟩
